import Mathlib

/-!
Shallow embedding of the `argo` command-line argument parsing library
(files `argo.go` and a second partial variant of the same package).

Strings are modelled as lists of characters (`Str`); Go maps keyed by
strings are modelled as association lists with Go map read/write
semantics (`findKey` / `mapInsert`); Go's in-place mutation of the
`*Flag` / `*Arg` objects stored in a command's maps is modelled by
functional update of the map entry at the resolved key.  Go runtime
panics (index out of range on `args[0]`, nil-pointer dereference) are
modelled explicitly as an `Outcome`/`Except` constructor, and the
unbounded `for` loop of `CommandRegistry.Parse` is given fuel: a result
of `none` means the loop did not terminate within the given fuel.
-/

namespace Argo

/-- Character-list model of a Go string. -/
abbrev Str := List Char

/-- Conversion from a Lean string literal to the `Str` model. -/
def str (s : String) : Str := s.toList

/-- Model of `strings.HasPrefix value p`. -/
def startsWith : Str → Str → Bool
  | _, [] => true
  | [], _ :: _ => false
  | a :: s, b :: q => decide (a = b) && startsWith s q

/-- Model of `strings.HasSuffix value p`. -/
def endsWith (value q : Str) : Bool := startsWith value.reverse q.reverse

/-- Model of `strings.TrimLeft value cutset`: drop leading characters that
belong to the cutset (a character set, not a literal word). -/
def trimLeftSet (value cutset : Str) : Str :=
  value.dropWhile (fun c => cutset.contains c)

/-- Model of `strings.TrimRight value cutset`. -/
def trimRightSet (value cutset : Str) : Str :=
  (trimLeftSet value.reverse cutset).reverse

/-- `removeWhitespaces` from the source: `strings.ReplaceAll(value, " ", "")`. -/
def removeWhitespaces (value : Str) : Str :=
  value.filter (fun c => decide (c ≠ ' '))

/-- `trimWhitespaces` from the source: `strings.Trim(value, " ")`. -/
def trimWhitespaces (value : Str) : Str :=
  trimRightSet (trimLeftSet value (str " ")) (str " ")

/-- Model of `strings.Split value "="`: split at every occurrence of the
single separator character. -/
def splitOnEq : Str → List Str
  | [] => [[]]
  | c :: rest =>
    let r := splitOnEq rest
    if c = '=' then [] :: r
    else
      match r with
      | [] => [[c]]
      | h :: t => (c :: h) :: t

/-- `isFlag` from the source, translated literally:
`len(value) >= 2 && len(value) == 2 && !strings.HasPrefix(value, "-")`. -/
def isFlag (value : Str) : Bool :=
  decide (2 ≤ value.length) && decide (value.length = 2) && !(startsWith value (str "-"))

/-- `isShortFlag` from the source:
`isFlag(value) && len(value) == 2 && !strings.HasPrefix(value, "--")`. -/
def isShortFlag (value : Str) : Bool :=
  isFlag value && decide (value.length = 2) && !(startsWith value (str "--"))

/-- `isInvertedFlag` from the source: if `isFlag(value)` and the value starts
with `--no-`, return `(true, strings.TrimLeft(value, "--no-"))`
(a cutset trim, as in the source), else `(false, "")`. -/
def isInvertedFlag (value : Str) : Bool × Str :=
  if isFlag value && startsWith value (str "--no-") then
    (true, trimLeftSet value (str "--no-"))
  else
    (false, [])

/-- `isUnsupportedFlag` from the source. -/
def isUnsupportedFlag (value : Str) : Bool :=
  if 2 ≤ value.length then
    if value.length = 2 then
      !(startsWith value (str "-")) || startsWith value (str "--")
    else
      !(startsWith value (str "--")) || startsWith value (str "---")
  else
    false

/-- `isVariadicArg` from the source: if the value is not a flag and ends with
`...`, return `(true, strings.TrimRight(value, "..."))`, else `(false, "")`. -/
def isVariadicArg (value : Str) : Bool × Str :=
  if !(isFlag value) && endsWith value (str "...") then
    (true, trimRightSet value (str "..."))
  else
    (false, [])

/-- `formatCommandValues` from the source: values classified as flags are
split at `=` and the parts whose space-trim is non-empty are kept (the
untrimmed part is appended, as in the source); other values pass through. -/
def formatCommandValues : List Str → List Str
  | [] => []
  | value :: rest =>
    if isFlag value then
      ((splitOnEq value).filter (fun q => !(trimWhitespaces q).isEmpty)) ++
        formatCommandValues rest
    else
      value :: formatCommandValues rest

/-- `next` from the source: head of the slice (Go zero value `""` when
empty) together with the remaining slice. -/
def next (slice : List Str) : Str × List Str :=
  match slice with
  | [] => ([], [])
  | v :: rest => (v, rest)

/-- The `Flag` struct from the source. -/
structure Flag where
  Name : Str
  ShortName : Str
  IsBoolean : Bool
  IsInverted : Bool
  Default : Str
  Value : Str
deriving DecidableEq, Repr

/-- The `Arg` struct from the source. -/
structure Arg where
  Name : Str
  IsVariadic : Bool
  Default : Str
  Value : Str
deriving DecidableEq, Repr

/-- The `Command` struct from the source; the Go maps are modelled by
association lists. -/
structure Command where
  Name : Str
  Flags : List (Str × Flag)
  shorthandFlags : List (Str × Str)
  Args : List (Str × Arg)
  ArgNames : List Str
deriving DecidableEq, Repr

/-- The `CommandRegistry` struct from the source. -/
structure CommandRegistry where
  BaseCommand : Str
  Version : Str
  Description : Str
  Commands : List (Str × Command)
deriving DecidableEq, Repr

/-- The top-level `Registry` type from the source
(`map[string]*CommandRegistry`). -/
abbrev Registry := List (Str × CommandRegistry)

/-- Go map read `m[k]` (`none` models the missing-key / nil-pointer case). -/
def findKey {α : Type} : List (Str × α) → Str → Option α
  | [], _ => none
  | q :: rest, k => if q.1 = k then some q.2 else findKey rest k

/-- Go map write `m[k] = v`: overwrite the entry at `k` if present,
otherwise add a new entry. -/
def mapInsert {α : Type} : List (Str × α) → Str → α → List (Str × α)
  | [], k, v => [(k, v)]
  | q :: rest, k, v => if q.1 = k then (k, v) :: rest else q :: mapInsert rest k v

/-- The name-cleaning stage of `AddArg`: remove whitespace from the declared
name, then strip a variadic `...` marker, returning the clean name and
whether the argument is variadic. -/
def argCleanName (arg : Arg) : Str × Bool :=
  let cleanName := removeWhitespaces arg.Name
  match isVariadicArg cleanName with
  | (true, argName) => (argName, true)
  | (false, _) => (cleanName, false)

/-- `Command.AddArg` from the source.  Returns the (possibly updated)
command together with the Go return values `(*Arg, bool)`: the stored
argument and `true` when the name already existed, otherwise the input
argument (as in the source) and `false`. -/
def AddArg (cmd : Command) (arg : Arg) : Command × Arg × Bool :=
  let cleanDefault := removeWhitespaces arg.Default
  let p := argCleanName arg
  match findKey cmd.Args p.1 with
  | some a => (cmd, a, true)
  | none =>
    let newArg : Arg := { Name := p.1, IsVariadic := p.2, Default := cleanDefault, Value := [] }
    ({ cmd with Args := mapInsert cmd.Args p.1 newArg,
                ArgNames := cmd.ArgNames ++ [p.1] },
     arg, false)

/-- The name-cleaning stage of `AddFlag`, translated from the source:
returns `(cleanName, cleanShortName, cleanDefaultValue, isInverted)`.
For a boolean flag declared with a `no-` name the source sets
`cleanName = strings.TrimLeft(flg.Name, "no-")` (a cutset trim of the raw
declared name), forces the default to `"true"` and erases the shorthand;
a plain boolean flag gets default `"false"`. -/
def flagClean (flg : Flag) : Str × Str × Str × Bool :=
  let cleanName := removeWhitespaces flg.Name
  let cleanShortName0 := removeWhitespaces flg.ShortName
  let cleanDefaultValue := removeWhitespaces flg.Default
  let cleanShortName := if cleanShortName0 ≠ [] then cleanShortName0.take 1 else cleanShortName0
  if flg.IsBoolean then
    if startsWith flg.Name (str "no-") then
      (trimLeftSet flg.Name (str "no-"), [], str "true", true)
    else
      (cleanName, cleanShortName, str "false", false)
  else
    (cleanName, cleanShortName, cleanDefaultValue, false)

/-- `Command.AddFlag` from the source.  Returns the (possibly updated)
command together with the Go return values `(*Flag, bool)`. -/
def AddFlag (cmd : Command) (flg : Flag) : Command × Flag × Bool :=
  let q := flagClean flg
  match findKey cmd.Flags q.1 with
  | some f => (cmd, f, true)
  | none =>
    let flag : Flag := { Name := q.1, ShortName := q.2.1, IsBoolean := flg.IsBoolean,
                         IsInverted := q.2.2.2, Default := q.2.2.1, Value := [] }
    let cmd' := { cmd with Flags := mapInsert cmd.Flags q.1 flag }
    let cmd'' :=
      if 0 < q.2.1.length then
        { cmd' with shorthandFlags := mapInsert cmd'.shorthandFlags q.2.1 q.1 }
      else cmd'
    (cmd'', flag, false)

/-- `CommandRegistry.AddCommand` from the source: store the command in the
`Commands` map under its name. -/
def AddCommand (cr : CommandRegistry) (cmd : Command) : CommandRegistry × Command :=
  ({ cr with Commands := mapInsert cr.Commands cmd.Name cmd }, cmd)

/-- Go runtime panics that the parser can hit. -/
inductive GoPanic where
  | indexOutOfRange
  | nilDeref
deriving DecidableEq, Repr

/-- The three typed errors of the library. -/
inductive ParseError where
  | unknownCommand (name : Str)
  | unknownFlag (name : Str)
  | unsupportedFlag (name : Str)
deriving DecidableEq, Repr

/-- Result of one `CommandRegistry.Parse` call.  `ok` carries the
(possibly nil) `*Command` returned on the normal path. -/
inductive Outcome where
  | ok (cmd : Option Command)
  | err (e : ParseError)
  | panicked (p : GoPanic)
deriving DecidableEq, Repr

/-- The positional-argument inner loop of `Parse` (`for index, argName :=
range commands.ArgNames`): assign the token to the first argument whose
value is empty; if the last declared argument is variadic and non-empty,
append `"," + value`.  A missing `Args` entry is a nil-pointer
dereference. -/
def argLoop (value : Str) : List (Str × Arg) → List Str → Nat → Nat →
    Except GoPanic (List (Str × Arg))
  | argsMap, [], _, _ => Except.ok argsMap
  | argsMap, argName :: rest, index, total =>
    match findKey argsMap argName with
    | none => Except.error GoPanic.nilDeref
    | some arg =>
      if arg.Value.length = 0 then
        Except.ok (mapInsert argsMap argName { arg with Value := value })
      else if index = total - 1 ∧ arg.IsVariadic = true then
        argLoop value
          (mapInsert argsMap argName { arg with Value := arg.Value ++ [','] ++ value })
          rest (index + 1) total
      else
        argLoop value argsMap rest (index + 1) total

/-- The `if flag.IsBoolean { ... } else { ... }` tail of the flag branch of
`Parse`: write the resolved value through the map entry at `key` (the Go
code mutates the `*Flag` stored there).  For a non-boolean flag the next
token of `valuesToParse` is peeked; the source's re-assignment of its
loop-local `valuesToParse` has no effect on later iterations and is
therefore not represented. -/
def applyFlag (commands : Command) (key : Str) (flag : Flag)
    (valuesToParse : List Str) : Command :=
  if flag.IsBoolean = true then
    let v := if flag.IsInverted = true then str "false" else str "true"
    { commands with Flags := mapInsert commands.Flags key { flag with Value := v } }
  else
    let nextValue := (next valuesToParse).1
    if nextValue.length ≠ 0 ∧ isFlag nextValue = false then
      { commands with Flags := mapInsert commands.Flags key { flag with Value := nextValue } }
    else
      commands

/-- The unbounded `for` loop of `CommandRegistry.Parse`, with fuel.
Each iteration re-reads the head of `tokens` (the source never reassigns
`formattedArguments`, so the cursor never advances); `none` means the
fuel ran out, i.e. the loop did not terminate.  Accessing a field of a
nil `*Command` is a panic; in the short-flag branch the source never
assigns its local `flag` pointer, so a successful shorthand lookup
dereferences nil at `flag.IsBoolean`. -/
def parseLoop : Nat → Option Command → List Str → Option Outcome
  | 0, _, _ => none
  | fuel + 1, cmdO, tokens =>
    let value := (next tokens).1
    let valuesToParse := (next tokens).2
    if value.length = 0 then
      some (Outcome.ok cmdO)
    else
      match cmdO with
      | none => some (Outcome.panicked GoPanic.nilDeref)
      | some commands =>
        if isFlag value = true then
          let name := trimLeftSet value (str "-")
          if isShortFlag value = true then
            match findKey commands.shorthandFlags name with
            | none => some (Outcome.err (ParseError.unknownFlag value))
            | some _ => some (Outcome.panicked GoPanic.nilDeref)
          else
            match isInvertedFlag value with
            | (true, flagName) =>
              match findKey commands.Flags flagName with
              | none => some (Outcome.err (ParseError.unknownFlag value))
              | some flag =>
                parseLoop fuel (some (applyFlag commands flagName flag valuesToParse)) tokens
            | (false, flagName) =>
              match findKey commands.Flags flagName with
              | none => some (Outcome.err (ParseError.unknownFlag value))
              | some f0 =>
                if f0.IsInverted = true then
                  some (Outcome.err (ParseError.unknownFlag value))
                else
                  match findKey commands.Flags name with
                  | none => some (Outcome.panicked GoPanic.nilDeref)
                  | some flag =>
                    parseLoop fuel (some (applyFlag commands name flag valuesToParse)) tokens
        else
          match argLoop value commands.Args commands.ArgNames 0 commands.ArgNames.length with
          | Except.error q => some (Outcome.panicked q)
          | Except.ok newArgs =>
            parseLoop fuel (some { commands with Args := newArgs }) tokens

/-- `CommandRegistry.Parse` from `argo.go`: read the selector at
`args[0]` (a panic on the empty vector), normalize the full vector with
`formatCommandValues`, pre-scan the raw vector for unsupported flags,
look the selector up in the `Commands` map and run the token loop. -/
def Parse (cmd : CommandRegistry) (args : List Str) (fuel : Nat) : Option Outcome :=
  match args with
  | [] => some (Outcome.panicked GoPanic.indexOutOfRange)
  | commandName :: _ =>
    let formattedArguments := formatCommandValues args
    match args.find? (fun val => isFlag val && isUnsupportedFlag val) with
    | some val => some (Outcome.err (ParseError.unsupportedFlag val))
    | none =>
      let commands := findKey cmd.Commands commandName
      parseLoop fuel commands formattedArguments

/-- `Registry.Parse` from the second source file of the package: its
`commandName` local is declared but never assigned (Go zero value `""`),
and the function body has no return statement after the unknown-command
check; that missing-return path is modelled as `none`. -/
def RegistryParse (r : Registry) (args : List Str) :
    Option (Except ParseError CommandRegistry) :=
  let commandName : Str := []
  match args.find? (fun val => isFlag val && isUnsupportedFlag val) with
  | some val => some (Except.error (ParseError.unsupportedFlag val))
  | none =>
    match findKey r commandName with
    | none => some (Except.error (ParseError.unknownCommand commandName))
    | some _ => none

/-! Helper lemmas about the map model. -/

theorem findKey_mapInsert {α : Type} (m : List (Str × α)) (k : Str) (v : α) :
    findKey (mapInsert m k v) k = some v := by
  induction m with
  | nil => simp [mapInsert, findKey]
  | cons q rest ih =>
    by_cases hq : q.1 = k
    · rw [mapInsert, if_pos hq, findKey, if_pos rfl]
    · rw [mapInsert, if_neg hq, findKey, if_neg hq]
      exact ih

theorem findKey_mapInsert_ne {α : Type} (m : List (Str × α)) (k k' : Str) (v : α)
    (h : k ≠ k') : findKey (mapInsert m k v) k' = findKey m k' := by
  induction m with
  | nil => simp [mapInsert, findKey, h]
  | cons q rest ih =>
    by_cases hq : q.1 = k
    · rw [mapInsert, if_pos hq, findKey, if_neg h, findKey, if_neg (hq ▸ h)]
    · rw [mapInsert, if_neg hq, findKey, findKey]
      by_cases hq' : q.1 = k'
      · rw [if_pos hq', if_pos hq']
      · rw [if_neg hq', if_neg hq']
        exact ih

theorem findKey_mapInsert_isSome {α : Type} (m : List (Str × α)) (k k' : Str) (v : α)
    (h : (findKey m k').isSome = true) :
    (findKey (mapInsert m k v) k').isSome = true := by
  by_cases hk : k = k'
  · subst hk; rw [findKey_mapInsert]; rfl
  · rw [findKey_mapInsert_ne m k k' v hk]; exact h

/-- The positional inner loop panics nowhere and preserves key presence
when every scanned argument name is present in the `Args` map. -/
theorem argLoop_ok (value : Str) :
    ∀ (names : List Str) (m : List (Str × Arg)) (i t : Nat),
      (∀ n ∈ names, (findKey m n).isSome = true) →
      ∃ m', argLoop value m names i t = Except.ok m' ∧
        ∀ k, (findKey m k).isSome = true → (findKey m' k).isSome = true := by
  intro names
  induction names with
  | nil => exact fun m i t _ => ⟨m, rfl, fun k h => h⟩
  | cons n rest ih =>
    intro m i t hinv
    obtain ⟨a, ha⟩ := Option.isSome_iff_exists.mp (hinv n (List.mem_cons_self n rest))
    rw [argLoop, ha]
    dsimp only
    by_cases h0 : a.Value.length = 0
    · rw [if_pos h0]
      exact ⟨_, rfl, fun k hk => findKey_mapInsert_isSome m n k _ hk⟩
    · rw [if_neg h0]
      by_cases hvar : i = t - 1 ∧ a.IsVariadic = true
      · rw [if_pos hvar]
        obtain ⟨m', hm', hp⟩ :=
          ih (mapInsert m n { a with Value := a.Value ++ [','] ++ value }) (i + 1) t
            (fun n' hn' =>
              findKey_mapInsert_isSome m n n' _ (hinv n' (List.mem_cons_of_mem n hn')))
        exact ⟨m', hm', fun k hk => hp k (findKey_mapInsert_isSome m n k _ hk)⟩
      · rw [if_neg hvar]
        obtain ⟨m', hm', hp⟩ :=
          ih m (i + 1) t (fun n' hn' => hinv n' (List.mem_cons_of_mem n hn'))
        exact ⟨m', hm', hp⟩

/-- Non-termination of the token loop: since the source never advances
`formattedArguments`, a head token that is non-empty and not flag-shaped
is reprocessed forever (for any command whose `ArgNames` are all present
in its `Args` map, so that the positional scan neither panics nor
returns). -/
theorem parseLoop_stuck (v : Str) (rest : List Str)
    (hne : v ≠ []) (hnf : isFlag v = false) :
    ∀ (fuel : Nat) (cmd : Command),
      (∀ n ∈ cmd.ArgNames, (findKey cmd.Args n).isSome = true) →
      parseLoop fuel (some cmd) (v :: rest) = none := by
  intro fuel
  induction fuel with
  | zero => exact fun cmd _ => rfl
  | succ m ih =>
    intro cmd hinv
    have hlen : ¬ (v.length = 0) := fun h => hne (List.length_eq_zero.mp h)
    rw [parseLoop]
    simp only [next, if_neg hlen, hnf, Bool.false_eq_true, if_false]
    obtain ⟨m', hm', hp⟩ :=
      argLoop_ok v cmd.ArgNames cmd.Args 0 cmd.ArgNames.length hinv
    rw [hm']
    exact ih { cmd with Args := m' } (fun n hn => hp n (hinv n hn))

/-- Every token classified as a flag by `isFlag` (length exactly 2, not
starting with `-`) is also classified unsupported by `isUnsupportedFlag`
(a length-2 token not starting with `-`). -/
theorem isUnsupportedFlag_of_isFlag (v : Str) (h : isFlag v = true) :
    isUnsupportedFlag v = true := by
  simp only [isFlag, Bool.and_eq_true, decide_eq_true_eq, Bool.not_eq_true'] at h
  obtain ⟨⟨h2, hlen⟩, hdash⟩ := h
  rw [isUnsupportedFlag, if_pos (by omega : 2 ≤ v.length), if_pos hlen, hdash]
  rfl

/-- When no value of the vector is flag-shaped, `formatCommandValues` is
the identity. -/
theorem formatCommandValues_id (values : List Str)
    (h : ∀ v ∈ values, isFlag v = false) : formatCommandValues values = values := by
  induction values with
  | nil => rfl
  | cons v rest ih =>
    rw [formatCommandValues, if_neg (by simp [h v (List.mem_cons_self v rest)])]
    rw [ih (fun v' hv' => h v' (List.mem_cons_of_mem v hv'))]

/-- The token loop never produces an `unknownFlag` error on a token stream
that contains no token classified by `isFlag`. -/
theorem parseLoop_no_unknownFlag :
    ∀ (fuel : Nat) (cmdO : Option Command) (tokens : List Str),
      (∀ v ∈ tokens, isFlag v = false) →
      ∀ s : Str, parseLoop fuel cmdO tokens ≠ some (Outcome.err (ParseError.unknownFlag s)) := by
  intro fuel
  induction fuel with
  | zero => intro cmdO tokens _ s h; exact Option.noConfusion h
  | succ m ih =>
    intro cmdO tokens hfl s h
    cases tokens with
    | nil =>
      rw [parseLoop.eq_def] at h
      simp [next] at h
    | cons v rest =>
      rw [parseLoop.eq_def] at h
      simp only [next] at h
      by_cases hv : v.length = 0
      · rw [if_pos hv] at h; simp at h
      · rw [if_neg hv] at h
        cases cmdO with
        | none => simp at h
        | some cmd =>
          have hfv : isFlag v = false := hfl v (List.mem_cons_self v rest)
          simp only [hfv, Bool.false_eq_true, if_false] at h
          cases hq : argLoop v cmd.Args cmd.ArgNames 0 cmd.ArgNames.length with
          | error q => rw [hq] at h; simp at h
          | ok newArgs =>
            rw [hq] at h
            exact ih (some { cmd with Args := newArgs }) (v :: rest) hfl s h

/-- `CommandRegistry.Parse` never returns an `unknownFlag` error: the
pre-scan rejects every `isFlag` token as unsupported, and without
`isFlag` tokens the main loop never takes its flag branch. -/
theorem Parse_no_unknownFlag (cr : CommandRegistry) (args : List Str) (fuel : Nat)
    (s : Str) : Parse cr args fuel ≠ some (Outcome.err (ParseError.unknownFlag s)) := by
  intro h
  cases args with
  | nil =>
    rw [Parse] at h
    simp at h
  | cons a0 rest =>
    rw [Parse] at h
    cases hfind : (a0 :: rest).find? (fun val => isFlag val && isUnsupportedFlag val) with
    | some val => rw [hfind] at h; simp at h
    | none =>
      have hnone : ∀ v ∈ a0 :: rest, isFlag v = false := by
        intro v hv
        have hno := List.find?_eq_none.mp hfind v hv
        by_cases hf : isFlag v = true
        · exact absurd (by rw [hf, isUnsupportedFlag_of_isFlag v hf]; rfl) hno
        · exact Bool.not_eq_true _ ▸ eq_false_of_ne_true hf
      rw [hfind] at h
      rw [formatCommandValues_id (a0 :: rest) hnone] at h
      exact parseLoop_no_unknownFlag fuel (findKey cr.Commands a0) (a0 :: rest) hnone s h

/-! Registration helper lemmas for the idempotence claim. -/

/-- `AddArg` when the clean name is already registered: the stored entry
and `true` are returned and the command is unchanged. -/
theorem AddArg_found (cmd : Command) (a : Arg) (x : Arg)
    (h : findKey cmd.Args (argCleanName a).1 = some x) :
    AddArg cmd a = (cmd, x, true) := by
  simp only [AddArg, h]

/-- After any `AddArg` call, the clean name is registered in the `Args`
map. -/
theorem AddArg_key_present (cmd : Command) (a : Arg) :
    ∃ stored, findKey (AddArg cmd a).1.Args (argCleanName a).1 = some stored := by
  cases hk : findKey cmd.Args (argCleanName a).1 with
  | some x => exact ⟨x, by rw [AddArg_found cmd a x hk]; exact hk⟩
  | none =>
    refine ⟨{ Name := (argCleanName a).1, IsVariadic := (argCleanName a).2,
              Default := removeWhitespaces a.Default, Value := [] }, ?_⟩
    simp only [AddArg, hk]
    exact findKey_mapInsert _ _ _

/-- `AddFlag` when the clean name is already registered: the stored entry
and `true` are returned and the command is unchanged. -/
theorem AddFlag_found (cmd : Command) (flg : Flag) (x : Flag)
    (h : findKey cmd.Flags (flagClean flg).1 = some x) :
    AddFlag cmd flg = (cmd, x, true) := by
  simp only [AddFlag, h]

/-- After any `AddFlag` call, the clean name is registered in the `Flags`
map. -/
theorem AddFlag_key_present (cmd : Command) (flg : Flag) :
    ∃ stored, findKey (AddFlag cmd flg).1.Flags (flagClean flg).1 = some stored := by
  cases hk : findKey cmd.Flags (flagClean flg).1 with
  | some x => exact ⟨x, by rw [AddFlag_found cmd flg x hk]; exact hk⟩
  | none =>
    refine ⟨{ Name := (flagClean flg).1, ShortName := (flagClean flg).2.1,
              IsBoolean := flg.IsBoolean, IsInverted := (flagClean flg).2.2.2,
              Default := (flagClean flg).2.2.1, Value := [] }, ?_⟩
    simp only [AddFlag, hk]
    by_cases hs : 0 < (flagClean flg).2.1.length
    · rw [if_pos hs]
      exact findKey_mapInsert _ _ _
    · rw [if_neg hs]
      exact findKey_mapInsert _ _ _

/-! Concrete command models used by the scenario claims. -/

/-- A freshly declared command with the given name and no flags or
arguments yet. -/
def emptyCommand (n : Str) : Command :=
  { Name := n, Flags := [], shorthandFlags := [], Args := [], ArgNames := [] }

/-- A command registry with no registered commands. -/
def emptyRegistry : CommandRegistry :=
  { BaseCommand := [], Version := [], Description := [], Commands := [] }

/-- The spec's example command `generate`, declared with the non-boolean
flag `generate` (shorthand `g`) and the positional argument `output`. -/
def generateCommand : Command :=
  (AddArg
    (AddFlag (emptyCommand (str "generate"))
      { Name := str "generate", ShortName := str "g", IsBoolean := false,
        IsInverted := false, Default := [], Value := [] }).1
    { Name := str "output", IsVariadic := false, Default := [], Value := [] }).1

/-- A registry holding the `generate` command. -/
def generateRegistry : CommandRegistry :=
  (AddCommand
    { BaseCommand := str "crn", Version := str "1.2", Description := [], Commands := [] }
    generateCommand).1

/-- The boolean flag input declared with name `no-verbose`. -/
def noVerboseInput : Flag :=
  { Name := str "no-verbose", ShortName := [], IsBoolean := true,
    IsInverted := false, Default := [], Value := [] }

/-- A command `serve` with the boolean flag declared as `no-verbose`. -/
def serveCommand : Command := (AddFlag (emptyCommand (str "serve")) noVerboseInput).1

/-- A registry holding the `serve` command. -/
def serveRegistry : CommandRegistry :=
  (AddCommand
    { BaseCommand := str "srv", Version := [], Description := [], Commands := [] }
    serveCommand).1

/-- A command `add` with positional arguments `name` and variadic
`tags...`, declared through `AddArg`. -/
def addCommandModel : Command :=
  (AddArg
    (AddArg (emptyCommand (str "add"))
      { Name := str "name", IsVariadic := false, Default := [], Value := [] }).1
    { Name := str "tags...", IsVariadic := false, Default := [], Value := [] }).1

/-- A registry holding the `add` command. -/
def addRegistry : CommandRegistry :=
  (AddCommand
    { BaseCommand := str "tagger", Version := [], Description := [], Commands := [] }
    addCommandModel).1

/-- A top-level registry in which the base command `crn` is registered. -/
def crnRegistry : Registry := [(str "crn", generateRegistry)]

/-! The claims. -/

/-- Claim C1, evaluated on the code at the claimed input.  The claim says
`Parse ["generate", "-g", "myval", "result.txt"]` returns no error, sets
the flag `generate` to `"myval"` and the argument `output` to
`"result.txt"`.  On the code, `isFlag` rejects every dash-prefixed token
(it accepts only 2-character tokens *not* starting with `-`), so `-g` is
treated as positional, and the loop of `Parse` never advances its token
cursor: for every fuel the parse is still running (`none`), i.e. the
call never terminates, let alone produces the claimed values. -/
theorem C1_generate_scenario_diverges (fuel : Nat) :
    Parse generateRegistry
      [str "generate", str "-g", str "myval", str "result.txt"] fuel = none := by
  show parseLoop fuel (some generateCommand)
      [str "generate", str "-g", str "myval", str "result.txt"] = none
  exact parseLoop_stuck (str "generate") [str "-g", str "myval", str "result.txt"]
    (by decide) (by decide) fuel generateCommand (by decide)

/-- Claim C2, evaluated on the code at a failing input.  The claim says
the token-consumption loop of `CommandRegistry.Parse` always terminates
once the token stream is exhausted.  On the code the loop re-reads the
head of `formattedArguments` forever (the slice returned by `next` is
bound to a loop-local variable and never replaces `formattedArguments`),
so already `Parse ["generate"]` on the registered `generate` command
never terminates: for every fuel the result is `none`. -/
theorem C2_parse_loop_never_terminates (fuel : Nat) :
    Parse generateRegistry [str "generate"] fuel = none := by
  show parseLoop fuel (some generateCommand) [str "generate"] = none
  exact parseLoop_stuck (str "generate") [] (by decide) (by decide) fuel
    generateCommand (by decide)

/-- Claim C3, evaluated on the code at the failing inputs.  The claim says
`Parse` is total at its public interface: a populated spec or one of the
three typed errors, no out-of-range access at position 0 and no
nil-command dereference.  On the code, the empty argument vector panics
with an index-out-of-range on `args[0]` (for every registry and fuel),
and a vector whose selector names no registered command dereferences the
nil command in the loop body and panics. -/
theorem C3_parse_entry_panics :
    (∀ (cr : CommandRegistry) (fuel : Nat),
        Parse cr [] fuel = some (Outcome.panicked GoPanic.indexOutOfRange)) ∧
    (∀ fuel : Nat,
        Parse emptyRegistry [str "xyz"] (fuel + 1)
          = some (Outcome.panicked GoPanic.nilDeref)) :=
  ⟨fun _ _ => rfl, fun _ => rfl⟩

/-- Claim C4, evaluated on the code at the failing input.  The claim says
`formatCommandValues` maps `"--flag=value"` to the two tokens `"--flag"`
and `"value"`.  On the code the `=`-split is guarded by `isFlag`, which
is false for `"--flag=value"` (its length is not 2), so the token passes
through unchanged and no split happens. -/
theorem C4_eq_split_not_performed :
    formatCommandValues [str "--flag=value"] = [str "--flag=value"] ∧
    formatCommandValues [str "--flag=value"] ≠ [str "--flag", str "value"] ∧
    isFlag (str "--flag=value") = false := by decide

/-- Claim C5 as stated is false at the concrete input `"--g"`: the claim
lists `--g` as unsupported (`true`), but `isUnsupportedFlag "--g"`
follows the length-greater-than-2 rule (starts with `--`, not with
`---`) and returns `false`. -/
theorem C5_counterexample_ddg : isUnsupportedFlag (str "--g") = false := by decide

/-- Claim C5 (amended): `isUnsupportedFlag` returns, for a token of
length 2, whether it does not start with `-` or starts with `--`; for a
token of length greater than 2, whether it does not start with `--` or
starts with `---`; and `false` for anything shorter than 2.  Concretely
`-ab` is unsupported, `-g`, `--good` and `--g` are supported, and
`---g` and `-good` are unsupported. -/
theorem C5_unsupported_shape_amended :
    (∀ v : Str, isUnsupportedFlag v =
       (if v.length = 2 then !(startsWith v (str "-")) || startsWith v (str "--")
        else if 2 < v.length then !(startsWith v (str "--")) || startsWith v (str "---")
        else false)) ∧
    isUnsupportedFlag (str "-ab") = true ∧
    isUnsupportedFlag (str "-g") = false ∧
    isUnsupportedFlag (str "--good") = false ∧
    isUnsupportedFlag (str "--g") = false ∧
    isUnsupportedFlag (str "---g") = true ∧
    isUnsupportedFlag (str "-good") = true := by
  refine ⟨fun v => ?_, by decide, by decide, by decide, by decide, by decide, by decide⟩
  rw [isUnsupportedFlag]
  by_cases h2 : v.length = 2
  · rw [if_pos (by omega : 2 ≤ v.length), if_pos h2, if_pos h2]
  · by_cases h3 : 2 < v.length
    · rw [if_pos (by omega : 2 ≤ v.length), if_neg h2, if_neg h2, if_pos h3]
    · rw [if_neg (by omega : ¬ 2 ≤ v.length), if_neg h2, if_neg h3]

/-- Claim C6, the registration half proved and the parsing half evaluated
on the code at the failing input.  Registering the boolean flag declared
`no-verbose` stores a flag named `verbose`, marked inverted, with no
shorthand and default `"true"`, and a boolean flag without the `no-`
prefix gets default `"false"` — that part of the claim holds.  But
parsing a vector containing `--no-verbose` never sets the flag to
`"false"`: `isFlag "--no-verbose"` is `false` (length is not 2), so the
token would be treated as positional, and the parse loop never
terminates (for every fuel the result is `none`). -/
theorem C6_inverted_flag_registration_but_parse_diverges :
    ((AddFlag (emptyCommand (str "serve")) noVerboseInput).2.1.Name = str "verbose" ∧
     (AddFlag (emptyCommand (str "serve")) noVerboseInput).2.1.IsInverted = true ∧
     (AddFlag (emptyCommand (str "serve")) noVerboseInput).2.1.ShortName = [] ∧
     (AddFlag (emptyCommand (str "serve")) noVerboseInput).2.1.Default = str "true" ∧
     (AddFlag (emptyCommand (str "serve"))
        { Name := str "verbose", ShortName := [], IsBoolean := true,
          IsInverted := false, Default := [], Value := [] }).2.1.Default = str "false") ∧
    isFlag (str "--no-verbose") = false ∧
    ∀ fuel : Nat, Parse serveRegistry [str "serve", str "--no-verbose"] fuel = none := by
  refine ⟨by decide, by decide, fun fuel => ?_⟩
  show parseLoop fuel (some serveCommand) [str "serve", str "--no-verbose"] = none
  exact parseLoop_stuck (str "serve") [str "--no-verbose"] (by decide) (by decide)
    fuel serveCommand (by decide)

/-- Claim C7, the registration half proved and the parsing half evaluated
on the code at the failing input.  Declaring `name` and `tags...` yields
the declaration-order list `[name, tags]` with `tags` variadic.  But
parsing `["add", "alice", "x", "y", "z"]` does not produce
`name="alice"`, `tags="x,y,z"`: the loop processes the head token
forever (the cursor never advances), so for every fuel the result is
`none`. -/
theorem C7_variadic_accumulation_diverges :
    (addCommandModel.ArgNames = [str "name", str "tags"] ∧
     (findKey addCommandModel.Args (str "tags")).map Arg.IsVariadic = some true ∧
     (findKey addCommandModel.Args (str "name")).map Arg.IsVariadic = some false) ∧
    ∀ fuel : Nat,
      Parse addRegistry [str "add", str "alice", str "x", str "y", str "z"] fuel = none := by
  refine ⟨by decide, fun fuel => ?_⟩
  show parseLoop fuel (some addCommandModel)
      [str "add", str "alice", str "x", str "y", str "z"] = none
  exact parseLoop_stuck (str "add") [str "alice", str "x", str "y", str "z"]
    (by decide) (by decide) fuel addCommandModel (by decide)

/-- Claim C8: registering the same argument or flag name twice returns
the stored spec together with the `true` "previously existed" indicator,
and returns the command of the first call unchanged (so the maps and the
declaration-order argument name list are untouched). -/
theorem C8_idempotent_registration (cmd : Command) (a : Arg) (flg : Flag) :
    (∃ stored : Arg, (∃ k : Str, findKey (AddArg cmd a).1.Args k = some stored) ∧
      AddArg (AddArg cmd a).1 a = ((AddArg cmd a).1, stored, true)) ∧
    (∃ storedF : Flag, (∃ k : Str, findKey (AddFlag cmd flg).1.Flags k = some storedF) ∧
      AddFlag (AddFlag cmd flg).1 flg = ((AddFlag cmd flg).1, storedF, true)) := by
  constructor
  · obtain ⟨stored, hst⟩ := AddArg_key_present cmd a
    exact ⟨stored, ⟨(argCleanName a).1, hst⟩, AddArg_found (AddArg cmd a).1 a stored hst⟩
  · obtain ⟨stored, hst⟩ := AddFlag_key_present cmd flg
    exact ⟨stored, ⟨(flagClean flg).1, hst⟩, AddFlag_found (AddFlag cmd flg).1 flg stored hst⟩

/-- Claim C9, evaluated on the code at the failing input.  The claim says
the caller-facing `Registry.Parse` returns `unknownCommand` exactly when
the selector taken from the argument vector is unregistered, carrying
that selector.  On the code the local `commandName` is declared but
never assigned, so the lookup always uses the empty string: even with
`crn` registered and the vector `["crn"]`, the call returns
`unknownCommand` carrying `""`, not the selector. -/
theorem C9_selector_never_read :
    RegistryParse crnRegistry [str "crn"]
      = some (Except.error (ParseError.unknownCommand [])) ∧
    findKey crnRegistry (str "crn") = some generateRegistry := by
  exact ⟨rfl, rfl⟩

/-- Claim C10: every token classified as a flag by `isFlag` is also
classified unsupported by `isUnsupportedFlag`, so the pre-scan of
`CommandRegistry.Parse` rejects it with `unsupportedFlag` before the
main loop runs, and `Parse` never returns an `unknownFlag` error on any
input. -/
theorem C10_unknown_flag_unreachable :
    (∀ v : Str, isFlag v = true → isUnsupportedFlag v = true) ∧
    ∀ (cr : CommandRegistry) (args : List Str) (fuel : Nat) (s : Str),
      Parse cr args fuel ≠ some (Outcome.err (ParseError.unknownFlag s)) :=
  ⟨isUnsupportedFlag_of_isFlag, Parse_no_unknownFlag⟩

/-- Witness for C10 at a concrete input: `"ab"` is an `isFlag` token and
is unsupported, and a concrete parse does not return `unknownFlag`. -/
theorem C10_unknown_flag_unreachable_witness :
    (isFlag (str "ab") = true ∧ isUnsupportedFlag (str "ab") = true) ∧
    Parse emptyRegistry [str "ab"] 3
      ≠ some (Outcome.err (ParseError.unknownFlag (str "ab"))) :=
  ⟨⟨by decide, C10_unknown_flag_unreachable.1 (str "ab") (by decide)⟩,
   C10_unknown_flag_unreachable.2 emptyRegistry [str "ab"] 3 (str "ab")⟩

end Argo
